import Mathlib

/-!
Verification of the conductor utilities of the ironic-xclarity-driver
repository (`src/ironic/conductor/utils.py`) against its natural-language
specification.

The Python module is shallowly embedded: dictionaries become structures with
`Option` fields where a key is optional (reading a required key from an
`Option` field models the `d[k]` access of Python, which raises `KeyError`
when the key is absent), exceptions become `Except`, and the stateful
power/error handlers become explicit state-passing functions that also record
an ordered trace of externally visible events (driver calls, `node.save()`
persists, emitted notifications, state-machine events).  Free-text error
messages keep the wording of the source with the `%`-interpolations spelled
out; surrounding quote characters of interpolated values are dropped.
-/

namespace ConductorUtils

/-- Enumerates the driver interfaces that can produce clean/deploy steps.
The source keys the two interface-priority dictionaries by exactly these five
interface names, and collects steps by iterating those dictionaries. -/
inductive Iface
  | power
  | management
  | deploy
  | bios
  | raid
deriving DecidableEq, Repr

/-- String name of an interface, as it appears in step dictionaries. -/
def Iface.name : Iface → String
  | .power => "power"
  | .management => "management"
  | .deploy => "deploy"
  | .bios => "bios"
  | .raid => "raid"

/-- Embeds `CLEANING_INTERFACE_PRIORITY` (utils.py lines 40-50): tie-break
table for clean steps of equal priority. -/
def CLEANING_INTERFACE_PRIORITY : Iface → Nat
  | .power => 5
  | .management => 4
  | .deploy => 3
  | .bios => 2
  | .raid => 1

/-- Embeds `DEPLOYING_INTERFACE_PRIORITY` (utils.py lines 52-64): tie-break
table for deploy steps of equal priority. -/
def DEPLOYING_INTERFACE_PRIORITY : Iface → Nat
  | .power => 5
  | .management => 4
  | .deploy => 3
  | .bios => 2
  | .raid => 1

/-- Step dictionary as it flows through sorting and merging (`_sorted_steps`,
`_get_steps`, `_get_all_deployment_steps`).  Every step reaching those
functions carries `interface`, `step` and `priority`; `args` is modelled by
the list of argument names (argument values are never inspected by this
module). -/
structure DStep where
  interface : Iface
  step : String
  args : List String := []
  priority : Int
deriving DecidableEq, Repr

/-- Embeds `_clean_step_key` (utils.py lines 633-639): sort key
`(priority, CLEANING_INTERFACE_PRIORITY[interface])`. -/
def _clean_step_key (s : DStep) : Int × Nat :=
  (s.priority, CLEANING_INTERFACE_PRIORITY s.interface)

/-- Embeds `_deploy_step_key` (utils.py lines 642-648): sort key
`(priority, DEPLOYING_INTERFACE_PRIORITY[interface])`. -/
def _deploy_step_key (s : DStep) : Int × Nat :=
  (s.priority, DEPLOYING_INTERFACE_PRIORITY s.interface)

/-- Lexicographic `<=` of Python on the `(priority, interface_priority)` key
tuples compared by `sorted`. -/
def stepKeyLE (a b : Int × Nat) : Bool :=
  decide (a.1 < b.1 ∨ (a.1 = b.1 ∧ a.2 ≤ b.2))

/-- Embeds `_sorted_steps` (utils.py lines 651-660): `sorted(steps, key=...,
reverse=True)`.  The `sorted` builtin is a stable sort; with `reverse=True` it
orders keys descending while equal-key elements keep their original relative
order.  `List.mergeSort` with the relation "key of the right element is at
most the key of the left element" is exactly that stable descending sort. -/
def _sorted_steps (steps : List DStep) (sort_step_key : DStep → Int × Nat) :
    List DStep :=
  steps.mergeSort (fun a b => stepKeyLE (sort_step_key b) (sort_step_key a))

/-- Step as stored in a deploy template record; besides the four step fields
used by the conductor it carries database bookkeeping fields (modelled here by
`deploy_template_id`), which `_get_steps_from_deployment_templates` strips. -/
structure TStep where
  interface : Iface
  step : String
  args : List String := []
  priority : Int
  deploy_template_id : Nat := 0
deriving DecidableEq, Repr

/-- Deploy template: a named bundle of steps.  Templates are owned by the
persistence layer; the conductor only reads the ones whose name matches one
of the instance traits of the node (`_get_deployment_templates`), so the
embedded functions below take the list of matching templates as an
argument. -/
structure DeployTemplate where
  name : String
  steps : List TStep
deriving DecidableEq, Repr

/-- Restriction of a template step to the fields
`(interface, step, args, priority)`: the dict comprehension over
`step_fields` in `_get_steps_from_deployment_templates`. -/
def tstepFields (s : TStep) : DStep :=
  ⟨s.interface, s.step, s.args, s.priority⟩

/-- Embeds `_get_steps_from_deployment_templates` (utils.py lines 788-806):
flatten the step lists of all matching deploy templates, restricting each
step to the fields `interface`, `step`, `args`, `priority`. -/
def _get_steps_from_deployment_templates
    (templates : List DeployTemplate) : List DStep :=
  (templates.map (fun t => t.steps.map tstepFields)).flatten

/-- Iteration order of the two interface-priority dictionaries (Python
dictionaries iterate in insertion order). -/
def INTERFACE_ORDER : List Iface :=
  [.power, .management, .deploy, .bios, .raid]

/-- Embeds `_get_steps` (utils.py lines 663-693): query each present driver
interface for its steps, keep only enabled (priority > 0) ones when `enabled`
is set, concatenate in interface-iteration order, and sort when a key is
given.  The node driver is modelled by a function giving, per interface, the
steps its query method returns (`none` when the interface is absent on the
node, in which case it is skipped). -/
def _get_steps (driver : Iface → Option (List DStep)) (interfaces : List Iface)
    (enabled : Bool) (sort_step_key : Option (DStep → Int × Nat)) :
    List DStep :=
  let steps := (interfaces.map (fun i =>
    match driver i with
    | none => []
    | some interface_steps =>
        interface_steps.filter (fun x => !enabled || decide (0 < x.priority))
    )).flatten
  match sort_step_key with
  | some key => _sorted_steps steps key
  | none => steps

/-- Embeds `_get_deployment_steps` (utils.py lines 714-729). -/
def _get_deployment_steps (driver : Iface → Option (List DStep))
    (enabled : Bool := false) (sort : Bool := true) : List DStep :=
  _get_steps driver INTERFACE_ORDER enabled
    (if sort then some _deploy_step_key else none)

/-- Embeds `_get_cleaning_steps` (utils.py lines 696-711). -/
def _get_cleaning_steps (driver : Iface → Option (List DStep))
    (enabled : Bool := false) (sort : Bool := true) : List DStep :=
  _get_steps driver INTERFACE_ORDER enabled
    (if sort then some _clean_step_key else none)

/-- Embeds `_get_all_deployment_steps` (utils.py lines 809-835):
template-derived user steps override driver steps on the same
`(interface, step)` key; user steps with priority > 0 are appended; the
combined list is sorted by the standard deploy key. -/
def _get_all_deployment_steps (templates : List DeployTemplate)
    (driver : Iface → Option (List DStep)) : List DStep :=
  let user_steps := _get_steps_from_deployment_templates templates
  let driver_steps := _get_deployment_steps driver true false
  let user_step_keys := user_steps.map (fun s => (s.interface, s.step))
  let steps := driver_steps.filter
    (fun s => !decide ((s.interface, s.step) ∈ user_step_keys))
  let enabled_user_steps := user_steps.filter (fun s => decide (0 < s.priority))
  _sorted_steps (steps ++ enabled_user_steps) _deploy_step_key

/-- Power states and power-state change requests from
`ironic.common.states`.  `NOSTATE` is `None` in the source and is modelled by
`Option PState` being `none` wherever `NOSTATE` can occur. -/
inductive PState
  | POWER_ON
  | POWER_OFF
  | REBOOT
  | SOFT_REBOOT
  | SOFT_POWER_OFF
  | ERROR
deriving DecidableEq, Repr

/-- String value of a power state (interpolated into error messages). -/
def PState.text : PState → String
  | .POWER_ON => "power on"
  | .POWER_OFF => "power off"
  | .REBOOT => "rebooting"
  | .SOFT_REBOOT => "soft rebooting"
  | .SOFT_POWER_OFF => "soft power off"
  | .ERROR => "error"

/-- String value of an optional power state (`None` prints as `None`). -/
def optStateText : Option PState → String
  | some st => st.text
  | none => "None"

/-- Exceptions raised or propagated by the embedded functions.  `ironic`
stands for any other exception of the `IronicException` hierarchy and
`other` for any exception outside it; both carry their message text. -/
inductive Exc
  | keyError (key : String)
  | invalidParameterValue (msg : String)
  | powerStateFailure (pstate : PState)
  | storageError (msg : String)
  | ironic (msg : String)
  | other (msg : String)
deriving DecidableEq, Repr

/-- Test `isinstance(e, exception.IronicException)`. -/
def Exc.isIronicException : Exc → Bool
  | .other _ => false
  | _ => true

/-- Test `isinstance(e, exception.StorageError)`. -/
def Exc.isStorageError : Exc → Bool
  | .storageError _ => true
  | _ => false

/-- Message text of an exception, `str(e)`. -/
def Exc.text : Exc → String
  | .keyError k => k
  | .invalidParameterValue m => m
  | .powerStateFailure p =>
      "Failed to set node power state to " ++ p.text ++ "."
  | .storageError m => m
  | .ironic m => m
  | .other m => m

/-- Kind of user step list being validated: the `step_type` argument of
`_validate_user_steps`, either clean or deploy. -/
inductive StepType
  | clean
  | deploy
deriving DecidableEq, Repr

/-- String name of a step type. -/
def stepTypeName : StepType → String
  | .clean => "clean"
  | .deploy => "deploy"

/-- User-supplied step dictionary (wire format): required keys `interface`
and `step`, optional keys `args` and `priority`; `abortable` is written by
clean-step validation.  `args` is modelled by the list of argument names. -/
structure UStep where
  interface : Iface
  step : String
  args : Option (List String) := none
  priority : Option Int := none
  abortable : Option Bool := none
deriving DecidableEq, Repr

/-- Entry of a driver-declared `argsinfo` dictionary. -/
structure ArgInfo where
  description : Option String := none
  required : Option Bool := none
deriving DecidableEq, Repr

/-- Driver-declared step dictionary with optional `priority`, `abortable` and
`argsinfo` keys (the source reads `priority` and `abortable` with
`.get(..., default)` during validation). -/
structure DrvStep where
  interface : Iface
  step : String
  priority : Option Int := none
  abortable : Option Bool := none
  argsinfo : Option (List (String × ArgInfo)) := none
deriving DecidableEq, Repr

/-- Embeds the Python `d[k]` access on an optional dictionary key: raises
`KeyError` when the key is absent. -/
def pyGet {α : Type} (v : Option α) (k : String) : Except Exc α :=
  match v with
  | some x => Except.ok x
  | none => Except.error (.keyError k)

/-- Deduplication keeping first occurrences, used to model iteration over a
Python set/Counter built from a list. -/
def dedupFirst {α : Type} [DecidableEq α] : List α → List α
  | [] => []
  | a :: rest => a :: (dedupFirst rest).filter (fun b => b ≠ a)

/-- Decidable equality of `Except` values, for evaluating the embedded
validators at concrete inputs. -/
instance {ε α : Type} [DecidableEq ε] [DecidableEq α] :
    DecidableEq (Except ε α)
  | .error a, .error b =>
      if h : a = b then .isTrue (by rw [h]) else .isFalse (by simp [h])
  | .error _, .ok _ => .isFalse (by simp)
  | .ok _, .error _ => .isFalse (by simp)
  | .ok a, .ok b =>
      if h : a = b then .isTrue (by rw [h]) else .isFalse (by simp [h])

/-- Rendering of a user step dictionary inside an error message (the source
interpolates the whole dict; the embedding renders its identifying pair). -/
def UStep.text (u : UStep) : String :=
  u.interface.name ++ "." ++ u.step

/-- Embeds `step_id` (utils.py lines 1021-1022) for a user step:
join the step name and the interface name with a dot. -/
def ustep_id (s : UStep) : String := s.step ++ "." ++ s.interface.name

/-- Embeds `step_id` (utils.py lines 1021-1022) for a driver step. -/
def dstep_id (s : DrvStep) : String := s.step ++ "." ++ s.interface.name

/-- Invalid-argument errors of `_validate_user_step` (utils.py lines
930-939): every user-supplied argument name must appear in the
driver-declared `argsinfo`. -/
def invalidArgsErrors (user_step : UStep) (driver_step : DrvStep)
    (step_type : StepType) : List String :=
  let argsinfo := driver_step.argsinfo.getD []
  let user_args := user_step.args.getD []
  let invalid := (dedupFirst user_args).filter
    (fun a => !(argsinfo.map Prod.fst).contains a)
  if invalid.isEmpty then []
  else [stepTypeName step_type ++ " step " ++ user_step.text ++
    " has these invalid arguments: " ++ String.intercalate ", " invalid]

/-- Missing-required-argument errors of `_validate_user_step` (utils.py lines
942-955): every driver-declared required argument must be present in the user
args; the message includes the description of the argument when available. -/
def missingArgsErrors (user_step : UStep) (driver_step : DrvStep)
    (step_type : StepType) : List String :=
  let argsinfo := driver_step.argsinfo.getD []
  let user_args := user_step.args.getD []
  let missing := (argsinfo.filter (fun ai =>
      ai.2.required.getD false && !user_args.contains ai.1)).map
    (fun ai => ai.1 ++ (match ai.2.description with
      | some d => if d ≠ "" then " (" ++ d ++ ")" else ""
      | none => ""))
  if missing.isEmpty then []
  else [stepTypeName step_type ++ " step " ++ user_step.text ++
    " is missing these required keyword arguments: " ++
    String.intercalate ", " missing]

/-- Core-step-override error message of `_validate_user_step` (utils.py
lines 966-970). -/
def coreOverrideMsg (user_step : UStep) : String :=
  "deploy step " ++ user_step.text ++ " is a core step and cannot be " ++
  "overridden by user steps. It may be disabled by setting the priority to 0"

/-- Embeds `_validate_user_step` (utils.py lines 888-972).  Returns the list
of validation errors for the step together with the (possibly updated) user
step; raises `KeyError` where the source reads the `priority` key of a
deploy user step that lacks it (lines 941 and 961). -/
def _validate_user_step (user_step : UStep) (driver_step : DrvStep)
    (step_type : StepType) : Except Exc (List String × UStep) :=
  let errors := invalidArgsErrors user_step driver_step step_type
  let check_required : Except Exc Bool :=
    match step_type with
    | .clean => Except.ok true
    | .deploy =>
        match pyGet user_step.priority "priority" with
        | .error e => Except.error e
        | .ok p => Except.ok (decide (0 < p))
  match check_required with
  | .error e => Except.error e
  | .ok cr =>
      let errors := errors ++
        (if cr then missingArgsErrors user_step driver_step step_type else [])
      match step_type with
      | .clean =>
          -- copy fields that should not be provided by a user
          Except.ok (errors, { user_step with
            abortable := some (driver_step.abortable.getD false),
            priority := some (driver_step.priority.getD 0) })
      | .deploy =>
          match pyGet user_step.priority "priority" with
          | .error e => Except.error e
          | .ok p =>
              if 0 < p then
                -- core deploy steps can only be disabled
                if driver_step.interface = Iface.deploy ∧
                    driver_step.step = "deploy"
                then Except.ok (errors ++ [coreOverrideMsg user_step],
                  user_step)
                else Except.ok (errors, user_step)
              else Except.ok (errors, user_step)

/-- Embeds `_validate_deploy_steps_unique` (utils.py lines 855-885): each
`(interface, step)` combination may be specified at most once across all
user steps. -/
def _validate_deploy_steps_unique (user_steps : List UStep) : List String :=
  let keys := user_steps.map (fun s => (s.interface, s.step))
  (dedupFirst keys).filterMap (fun k =>
    if 1 < keys.count k then
      some ("duplicate deploy steps for " ++ k.1.name ++ "." ++ k.2 ++
        ". Deploy steps from all deploy templates matching the instance " ++
        "traits of a node cannot have the same interface and step")
    else none)

/-- Loop of `_validate_user_steps` (utils.py lines 1029-1041): for each user
step, look up the matching driver step by `step_id` in the driver-step
dictionary (later driver steps with the same id overwrite earlier ones, as in
the dict comprehension of line 1027); an absent match contributes one
unsupported-step error and the step is skipped; otherwise the step is
validated and its errors collected. -/
def _validate_steps_loop (driver_steps : List DrvStep) (step_type : StepType) :
    List UStep → Except Exc (List String × List UStep)
  | [] => Except.ok ([], [])
  | u :: rest =>
      match driver_steps.reverse.find? (fun d => dstep_id d = ustep_id u) with
      | none =>
          match _validate_steps_loop driver_steps step_type rest with
          | .error e => Except.error e
          | .ok (errs, vs) =>
              Except.ok (("node does not support this " ++
                stepTypeName step_type ++ " step: " ++ u.text) :: errs,
                u :: vs)
      | some d =>
          match _validate_user_step u d step_type with
          | .error e => Except.error e
          | .ok (serrs, u1) =>
              match _validate_steps_loop driver_steps step_type rest with
              | .error e => Except.error e
              | .ok (errs, vs) => Except.ok (serrs ++ errs, u1 :: vs)

/-- Embeds `_validate_user_steps` (utils.py lines 975-1051): validate every
user step against the driver steps, collect all errors (plus, for deploy
steps, duplicate-step errors) and, if any, raise them together as one
`InvalidParameterValue`; on success return the validated steps.  The function
is pure in the node: it takes no node state and hence mutates none. -/
def _validate_user_steps (user_steps : List UStep)
    (driver_steps : List DrvStep) (step_type : StepType) :
    Except Exc (List UStep) :=
  match _validate_steps_loop driver_steps step_type user_steps with
  | .error e => Except.error e
  | .ok (errors, validated) =>
      let errors := errors ++
        (match step_type with
         | .deploy => _validate_deploy_steps_unique user_steps
         | .clean => [])
      if errors.isEmpty then Except.ok validated
      else Except.error (.invalidParameterValue (String.intercalate "; " errors))

/-- Provision states from `ironic.common.states` used by this module. -/
inductive ProvState
  | ACTIVE
  | ADOPTING
  | AVAILABLE
  | MANAGEABLE
  | CLEANING
  | CLEANWAIT
  | CLEANFAIL
  | DEPLOYING
  | DEPLOYWAIT
  | DEPLOYFAIL
deriving DecidableEq, Repr

/-- Notification level of `fields.NotificationLevel`. -/
inductive NLevel
  | INFO
  | ERROR
deriving DecidableEq, Repr

/-- Notification status of `fields.NotificationStatus`. -/
inductive NStatus
  | START
  | END
  | ERROR
deriving DecidableEq, Repr

/-- Node fields touched by the power controller. -/
structure PNode where
  provision_state : ProvState
  power_state : Option PState
  target_power_state : Option PState
  last_error : Option String
deriving DecidableEq, Repr

/-- Externally visible events of the power controller, in order: emitted
power-set notifications, `node.save()` persists (recording the persisted
node), and driver calls. -/
inductive Ev
  | notify (level : NLevel) (status : NStatus) (state : PState)
  | save (n : PNode)
  | getPowerCall
  | setPowerCall (state : PState)
  | rebootCall
  | attachCall
  | detachCall
deriving DecidableEq, Repr

/-- State threaded through the power controller: the in-memory node plus the
ordered event trace. -/
structure PowerSt where
  node : PNode
  events : List Ev
deriving DecidableEq, Repr

/-- Appends an emitted notification to the trace. -/
def PowerSt.emit (s : PowerSt) (l : NLevel) (st : NStatus) (ps : PState) :
    PowerSt :=
  { s with events := s.events ++ [Ev.notify l st ps] }

/-- Replaces the in-memory node. -/
def PowerSt.setNode (s : PowerSt) (n : PNode) : PowerSt := { s with node := n }

/-- Embeds `node.save()`: records the persisted node in the trace. -/
def PowerSt.saveNode (s : PowerSt) : PowerSt :=
  { s with events := s.events ++ [Ev.save s.node] }

/-- Appends a driver-call event to the trace. -/
def PowerSt.call (s : PowerSt) (e : Ev) : PowerSt :=
  { s with events := s.events ++ [e] }

/-- Behaviour of the power/storage capability drivers during one
`node_power_action` call: the outcome of each driver method (each is invoked
at most once per call). -/
structure PowerDriver where
  get_power_state : Except Exc PState
  set_power_state : PState → Except Exc Unit
  reboot : Except Exc Unit
  attach_volumes : Except Exc Unit
  detach_volumes : Except Exc Unit

/-- Embeds `_calculate_target_state` (utils.py lines 183-190). -/
def _calculate_target_state (new_state : PState) : Option PState :=
  if new_state = .POWER_ON ∨ new_state = .REBOOT ∨ new_state = .SOFT_REBOOT
  then some .POWER_ON
  else if new_state = .POWER_OFF ∨ new_state = .SOFT_POWER_OFF
  then some .POWER_OFF
  else none

/-- Embeds `_not_going_to_change` (utils.py lines 216-236): clear
`last_error`, resync `power_state` to the observed state, clear the pending
target, persist, emit an END notification. -/
def _not_going_to_change (s : PowerSt) (new_state curr_state : PState) :
    PowerSt :=
  let s := s.setNode { s.node with
    last_error := none,
    power_state := some curr_state,
    target_power_state := none }
  let s := s.saveNode
  s.emit .INFO .END new_state

/-- Embeds `_can_skip_state_change` (utils.py lines 193-264): only
POWER_ON/POWER_OFF/SOFT_POWER_OFF requests are candidates for skipping; the
current power state is read from the driver (a failure there persists the
error state, emits an error notification and re-raises); the request is
skipped when the current state already equals the semantic target. -/
def _can_skip_state_change (driver : PowerDriver) (new_state : PState)
    (s : PowerSt) : Except Exc Bool × PowerSt :=
  if ¬(new_state = .POWER_ON ∨ new_state = .POWER_OFF ∨
      new_state = .SOFT_POWER_OFF) then (Except.ok false, s)
  else
    let s := s.call .getPowerCall
    match driver.get_power_state with
    | .error e =>
        let s := s.setNode { s.node with
          last_error := some ("Failed to change power state to " ++
            new_state.text ++ ". Error: " ++ e.text),
          target_power_state := none }
        let s := s.saveNode
        let s := s.emit .ERROR .ERROR new_state
        (Except.error e, s)
    | .ok curr_state =>
        if curr_state = .POWER_ON then
          if new_state = .POWER_ON then
            (Except.ok true, _not_going_to_change s new_state curr_state)
          else (Except.ok false, s)
        else if curr_state = .POWER_OFF then
          if new_state = .POWER_OFF ∨ new_state = .SOFT_POWER_OFF then
            (Except.ok true, _not_going_to_change s new_state curr_state)
          else (Except.ok false, s)
        else (Except.ok false, s)

/-- Embeds the `try` block of `node_power_action` (utils.py lines 302-314):
attach volumes when powering on an ACTIVE node, then either set the power
state or reboot.  Returns the outcome together with the driver-call events
performed, in order. -/
def powerActionTry (driver : PowerDriver) (new_state : PState)
    (target_state : Option PState) (provision_state : ProvState) :
    Except Exc Unit × List Ev :=
  if target_state = some .POWER_ON ∧ provision_state = .ACTIVE then
    match driver.attach_volumes with
    | .error e => (Except.error e, [.attachCall])
    | .ok _ =>
        if new_state ≠ .REBOOT then
          (driver.set_power_state new_state,
           [.attachCall, .setPowerCall new_state])
        else (driver.reboot, [.attachCall, .rebootCall])
  else
    if new_state ≠ .REBOOT then
      (driver.set_power_state new_state, [.setPowerCall new_state])
    else (driver.reboot, [.rebootCall])

/-- Continuation of `node_power_action` after the skip check returned false
(utils.py lines 292-351): compute the target state, persist
`target_power_state` and clear `last_error` if starting a new operation, take
the power action, and on success persist `power_state = target`, clear the
target, emit an END notification, and best-effort detach volumes when
powering off an ACTIVE node; on failure persist the error state (clearing
the target and recording a message naming both the computed target state and
the requested state together with the error), emit an ERROR notification and
re-raise. -/
def node_power_action_unskipped (driver : PowerDriver) (new_state : PState)
    (s : PowerSt) : Except Exc Unit × PowerSt :=
  let target_state := _calculate_target_state new_state
  let s :=
    if s.node.target_power_state ≠ target_state then
      (s.setNode { s.node with
        target_power_state := target_state,
        last_error := none }).saveNode
    else s
  match powerActionTry driver new_state target_state
      s.node.provision_state with
  | (.error e, evs) =>
      let s := { s with events := s.events ++ evs }
      let s := s.setNode { s.node with
        target_power_state := none,
        last_error := some ("Failed to change power state to " ++
          optStateText target_state ++ " by " ++ new_state.text ++
          ". Error: " ++ e.text) }
      let s := s.saveNode
      let s := s.emit .ERROR .ERROR new_state
      (Except.error e, s)
  | (.ok _, evs) =>
      let s := { s with events := s.events ++ evs }
      let s := s.setNode { s.node with
        power_state := target_state,
        target_power_state := none }
      let s := s.saveNode
      let s := s.emit .INFO .END new_state
      if target_state = some .POWER_OFF ∧
          s.node.provision_state = .ACTIVE then
        let s := s.call .detachCall
        match driver.detach_volumes with
        | .error e =>
            if e.isStorageError then (Except.ok (), s)
            else (Except.error e, s)
        | .ok _ => (Except.ok (), s)
      else (Except.ok (), s)

/-- Embeds `node_power_action` (utils.py lines 267-351): emit a START
notification; return after the skip check when the node is already in the
requested state; otherwise run the unskipped continuation above. -/
def node_power_action (driver : PowerDriver) (new_state : PState)
    (s : PowerSt) : Except Exc Unit × PowerSt :=
  let s := s.emit .INFO .START new_state
  match _can_skip_state_change driver new_state s with
  | (.error e, s) => (Except.error e, s)
  | (.ok true, s) => (Except.ok (), s)
  | (.ok false, s) => node_power_action_unskipped driver new_state s

/-- Models `loopingcall.BackOffLoopingCall` as used by
`node_wait_for_power_state` (an external oslo.service collaborator): sleep
`delay`, poll; a successful poll stops the loop; an unsuccessful poll doubles
the delay (the random jitter factor of the library is abstracted to its
deterministic mean of 2); the loop raises `LoopingCallTimeOut` (here:
`false`) once the accumulated sleep time would exceed the timeout.  Returns
whether the poll succeeded and the list of sleeps performed. -/
def backOffLoop (poll : Nat → Bool) (delay timeLeft idx : Nat) :
    Bool × List Nat :=
  if h1 : timeLeft < delay then (false, [])
  else if poll idx then (true, [delay])
  else if h2 : delay = 0 then (false, [delay])
  else
    let r := backOffLoop poll (delay * 2) (timeLeft - delay) (idx + 1)
    (r.1, delay :: r.2)
termination_by timeLeft
decreasing_by omega

/-- Timeout actually used by `node_wait_for_power_state` (utils.py line 162):
`timeout or CONF.conductor.power_state_change_timeout` — a falsy caller value
(absent or 0) falls back to the configured default. -/
def retryTimeout (timeout : Option Nat) (conf_timeout : Nat) : Nat :=
  match timeout with
  | none => conf_timeout
  | some t => if t = 0 then conf_timeout else t

/-- Embeds `node_wait_for_power_state` (utils.py lines 152-180): poll the
driver power state with backoff (initial delay 1) until it matches
`new_state`; on `LoopingCallTimeOut` raise `PowerStateFailure` naming the
desired state.  `poll i` is the state the driver reports at the i-th poll.
Returns the outcome and the list of sleeps performed. -/
def node_wait_for_power_state (poll : Nat → PState) (new_state : PState)
    (timeout : Option Nat) (conf_timeout : Nat) :
    Except Exc PState × List Nat :=
  let r := backOffLoop (fun i => decide (poll i = new_state)) 1
    (retryTimeout timeout conf_timeout) 0
  (if r.1 then Except.ok new_state
   else Except.error (.powerStateFailure new_state), r.2)

/-- Node fields touched by `deploying_error_handler`.  `deploy_step` is the
current-step dictionary (cleared to the empty dict) and `deploy_step_index`
the step cursor in `driver_internal_info` (popped). -/
structure DNode where
  provision_state : ProvState
  last_error : Option String
  deploy_step : List (String × String)
  deploy_step_index : Option Nat
deriving DecidableEq, Repr

/-- Externally visible events of `deploying_error_handler`, in order. -/
inductive DEv
  | save (n : DNode)
  | cleanUpCall
  | refreshCall
  | processEvent (event : String)
deriving DecidableEq, Repr

/-- State threaded through `deploying_error_handler`: the in-memory node, the
last persisted copy (`node.refresh()` reloads it; under the exclusive lock no
concurrent writer exists), and the event trace. -/
structure DeployTask where
  node : DNode
  db : DNode
  events : List DEv
deriving DecidableEq, Repr

/-- Embeds `deploying_error_handler` (utils.py lines 449-497): set
`last_error` to the user message and persist immediately; if `clean_up`,
call the deploy clean_up of the driver (whose outcome is the
`clean_up_result` argument) and fold any failure into an augmented message;
refresh the node from storage, clear `deploy_step` and the step cursor if
still in a deploying-related state, write back the (possibly augmented)
error, persist again, and trigger the `fail` process event.  The `logmsg`
and `traceback` arguments of the source only affect logging and are not
modelled. -/
def deploying_error_handler (clean_up_result : Except Exc Unit)
    (errmsg : String) (clean_up : Bool) (s : DeployTask) : DeployTask :=
  let node := { s.node with last_error := some errmsg }
  let s := { s with
    node := node,
    db := node,
    events := s.events ++ [DEv.save node] }
  let cleanupStep : Option String × DeployTask :=
    if clean_up then
      let s := { s with events := s.events ++ [DEv.cleanUpCall] }
      match clean_up_result with
      | .ok _ => (none, s)
      | .error e =>
          let addl := if e.isIronicException then
              "Also failed to clean up due to: " ++ e.text
            else
              "An unhandled exception was encountered while aborting. More " ++
              "information may be found in the log file."
          (some (errmsg ++ ". " ++ addl), s)
    else (none, s)
  let cleanup_err := cleanupStep.1
  let s := cleanupStep.2
  let s := { s with node := s.db, events := s.events ++ [DEv.refreshCall] }
  let s :=
    if s.node.provision_state = .DEPLOYING ∨
        s.node.provision_state = .DEPLOYWAIT ∨
        s.node.provision_state = .DEPLOYFAIL then
      { s with node := { s.node with
        deploy_step := [], deploy_step_index := none } }
    else s
  let s := match cleanup_err with
    | some m => { s with node := { s.node with last_error := some m } }
    | none => s
  let s := { s with db := s.node, events := s.events ++ [DEv.save s.node] }
  { s with events := s.events ++ [DEv.processEvent "fail"] }

theorem stepKeyLE_trans (a b c : Int × Nat) :
    stepKeyLE a b → stepKeyLE b c → stepKeyLE a c := by
  simp only [stepKeyLE, decide_eq_true_eq]
  omega

theorem stepKeyLE_total (a b : Int × Nat) :
    stepKeyLE a b || stepKeyLE b a := by
  simp only [stepKeyLE, Bool.or_eq_true, decide_eq_true_eq]
  omega

theorem sorted_steps_perm (steps : List DStep) (key : DStep → Int × Nat) :
    (_sorted_steps steps key).Perm steps := by
  unfold _sorted_steps
  exact List.mergeSort_perm _ _

theorem sorted_steps_pairwise (steps : List DStep) (key : DStep → Int × Nat) :
    (_sorted_steps steps key).Pairwise
      (fun a b => stepKeyLE (key b) (key a)) := by
  unfold _sorted_steps
  exact @List.sorted_mergeSort _ (fun a b => stepKeyLE (key b) (key a))
    (fun _ _ _ h1 h2 => stepKeyLE_trans _ _ _ h2 h1)
    (fun x y => stepKeyLE_total (key y) (key x))
    steps

theorem sorted_steps_pair_sublist (steps : List DStep)
    (key : DStep → Int × Nat) (a b : DStep)
    (hsub : List.Sublist [a, b] steps) (hle : stepKeyLE (key b) (key a)) :
    List.Sublist [a, b] (_sorted_steps steps key) := by
  unfold _sorted_steps
  exact @List.pair_sublist_mergeSort _ (fun a b => stepKeyLE (key b) (key a))
    _ _ _
    (fun _ _ _ h1 h2 => stepKeyLE_trans _ _ _ h2 h1)
    (fun x y => stepKeyLE_total (key y) (key x))
    hle hsub

/-- C4: for every clean or deploy step list, `_sorted_steps` returns a
permutation of the input that is ordered descending by the
`(priority, interface priority)` key, the sort is stable (any two elements in
the input whose left key is at least the right key — in particular any
equal-key pair — keep their relative order), and in the output a step of
equal priority on a higher-priority interface always precedes one on a
lower-priority interface. -/
theorem sorted_steps_spec (key : DStep → Int × Nat)
    (hkey : key = _clean_step_key ∨ key = _deploy_step_key)
    (steps : List DStep) :
    (_sorted_steps steps key).Perm steps
    ∧ (_sorted_steps steps key).Pairwise
        (fun a b => stepKeyLE (key b) (key a))
    ∧ (∀ a b : DStep, List.Sublist [a, b] steps → stepKeyLE (key b) (key a) →
        List.Sublist [a, b] (_sorted_steps steps key))
    ∧ (∀ a b : DStep, List.Sublist [a, b] (_sorted_steps steps key) →
        a.priority = b.priority → (key b).2 ≤ (key a).2) := by
  refine ⟨sorted_steps_perm steps key, sorted_steps_pairwise steps key,
    sorted_steps_pair_sublist steps key, ?_⟩
  intro a b hsub hprio
  have hle : stepKeyLE (key b) (key a) :=
    List.pairwise_iff_forall_sublist.mp (sorted_steps_pairwise steps key) hsub
  have hfst : (key a).1 = a.priority ∧ (key b).1 = b.priority := by
    rcases hkey with h | h <;> subst h <;> exact ⟨rfl, rfl⟩
  simp only [stepKeyLE, decide_eq_true_eq] at hle
  omega

/-- Witness for C4 at a concrete input: a deploy step of priority 10 and a
power step of priority 10; the sorted output is ordered descending by key,
so the power step precedes the deploy step. -/
theorem sorted_steps_spec_witness :
    (_sorted_steps
        [⟨Iface.deploy, "d", [], 10⟩, ⟨Iface.power, "p", [], 10⟩]
        _deploy_step_key).Pairwise
      (fun a b => stepKeyLE (_deploy_step_key b) (_deploy_step_key a)) :=
  (sorted_steps_spec _deploy_step_key (Or.inr rfl)
    [⟨Iface.deploy, "d", [], 10⟩, ⟨Iface.power, "p", [], 10⟩]).2.1

theorem mem_get_steps_enabled {driver : Iface → Option (List DStep)}
    {interfaces : List Iface} {s : DStep}
    (h : s ∈ _get_steps driver interfaces true none) : 0 < s.priority := by
  simp only [_get_steps, List.mem_flatten, List.mem_map] at h
  obtain ⟨l, ⟨i, _, hl⟩, hs⟩ := h
  subst hl
  cases hdi : driver i
  · rw [hdi] at hs
    simp at hs
  · rw [hdi] at hs
    have := (List.mem_filter.mp hs).2
    simp only [Bool.not_true, Bool.false_or, decide_eq_true_eq] at this
    exact this

/-- C5: the merged deploy-step list contains no driver step whose
`(interface, step)` pair is that of a template-derived user step (for such
keys the result contains exactly the enabled user steps), for other keys it
contains exactly the enabled driver steps, every step in it has priority > 0
(in particular no priority-0 user step appears), and it is sorted descending
by the standard deploy `(priority, interface-priority)` key. -/
theorem get_all_deployment_steps_spec (templates : List DeployTemplate)
    (driver : Iface → Option (List DStep)) :
    (∀ s : DStep,
      (s.interface, s.step) ∈ (_get_steps_from_deployment_templates
          templates).map (fun u => (u.interface, u.step)) →
      (_get_all_deployment_steps templates driver).count s =
        ((_get_steps_from_deployment_templates templates).filter
          (fun u => decide (0 < u.priority))).count s)
    ∧ (∀ s : DStep,
      (s.interface, s.step) ∉ (_get_steps_from_deployment_templates
          templates).map (fun u => (u.interface, u.step)) →
      (_get_all_deployment_steps templates driver).count s =
        (_get_deployment_steps driver true false).count s)
    ∧ (∀ s ∈ _get_all_deployment_steps templates driver, 0 < s.priority)
    ∧ (_get_all_deployment_steps templates driver).Pairwise
        (fun a b => stepKeyLE (_deploy_step_key b) (_deploy_step_key a)) := by
  set U := _get_steps_from_deployment_templates templates with hU
  set D := _get_deployment_steps driver true false with hD
  have hresult : _get_all_deployment_steps templates driver =
      _sorted_steps
        (D.filter (fun s => !decide ((s.interface, s.step) ∈
            U.map (fun u => (u.interface, u.step))))
          ++ U.filter (fun s => decide (0 < s.priority)))
        _deploy_step_key := rfl
  have hcount : ∀ s : DStep,
      (_get_all_deployment_steps templates driver).count s =
      (D.filter (fun s => !decide ((s.interface, s.step) ∈
          U.map (fun u => (u.interface, u.step))))).count s
        + (U.filter (fun s => decide (0 < s.priority))).count s := by
    intro s
    rw [hresult, (sorted_steps_perm _ _).count_eq, List.count_append]
  refine ⟨?_, ?_, ?_, ?_⟩
  · intro s hk
    rw [hcount s]
    have : (D.filter (fun s => !decide ((s.interface, s.step) ∈
        U.map (fun u => (u.interface, u.step))))).count s = 0 := by
      apply List.count_eq_zero.mpr
      intro hmem
      have := (List.mem_filter.mp hmem).2
      simp only [Bool.not_eq_true', decide_eq_false_iff_not] at this
      exact this hk
    omega
  · intro s hk
    rw [hcount s]
    have h1 : (U.filter (fun s => decide (0 < s.priority))).count s = 0 := by
      apply List.count_eq_zero.mpr
      intro hmem
      exact hk (List.mem_map.mpr ⟨s, (List.mem_filter.mp hmem).1, rfl⟩)
    have h2 : (D.filter (fun s => !decide ((s.interface, s.step) ∈
        U.map (fun u => (u.interface, u.step))))).count s = D.count s := by
      apply List.count_filter
      simpa using hk
    omega
  · intro s hs
    rw [hresult] at hs
    have := (sorted_steps_perm _ _).mem_iff.mp hs
    rcases List.mem_append.mp this with h | h
    · exact mem_get_steps_enabled (List.mem_filter.mp h).1
    · have := (List.mem_filter.mp h).2
      simpa using this
  · rw [hresult]
    exact sorted_steps_pairwise _ _

/-- Witness for C5 at a concrete input: a template disables the driver step
`(deploy, erase)` with priority 0; the merged list contains exactly the
enabled user steps with that key. -/
theorem get_all_deployment_steps_spec_witness :
    (_get_all_deployment_steps
        [⟨"T", [⟨Iface.deploy, "erase", [], 0, 0⟩]⟩]
        (fun i => if i = Iface.deploy
          then some [⟨Iface.deploy, "erase", [], 10⟩] else none)).count
      ⟨Iface.deploy, "erase", [], 10⟩ =
    ((_get_steps_from_deployment_templates
        [⟨"T", [⟨Iface.deploy, "erase", [], 0, 0⟩]⟩]).filter
      (fun u => decide (0 < u.priority))).count
      ⟨Iface.deploy, "erase", [], 10⟩ :=
  (get_all_deployment_steps_spec
      [⟨"T", [⟨Iface.deploy, "erase", [], 0, 0⟩]⟩]
      (fun i => if i = Iface.deploy
        then some [⟨Iface.deploy, "erase", [], 10⟩] else none)).1
    ⟨Iface.deploy, "erase", [], 10⟩ (by decide)


theorem validate_user_step_clean_eq (u : UStep) (d : DrvStep) :
    _validate_user_step u d .clean =
      Except.ok (invalidArgsErrors u d .clean ++ missingArgsErrors u d .clean,
        { u with abortable := some (d.abortable.getD false),
                 priority := some (d.priority.getD 0) }) := rfl

theorem validate_user_step_deploy_eq (u : UStep) (d : DrvStep) (p : Int)
    (hp : u.priority = some p) :
    _validate_user_step u d .deploy =
      Except.ok ((invalidArgsErrors u d .deploy ++
          (if 0 < p then missingArgsErrors u d .deploy else [])) ++
        (if 0 < p ∧ d.interface = Iface.deploy ∧ d.step = "deploy"
         then [coreOverrideMsg u] else []), u) := by
  unfold _validate_user_step
  rw [hp]
  by_cases h0 : 0 < p
  · by_cases hc : d.interface = Iface.deploy ∧ d.step = "deploy"
    · simp [pyGet, h0, hc]
    · simp [pyGet, h0, hc]
  · simp [pyGet, h0]

/-- C6: clean-step validation unconditionally overwrites the `abortable` and
`priority` fields of the user step from the driver step (defaulting to
`false` and 0 when the driver step omits them), regardless of what the
caller supplied; in particular a clean step submitted with priority 999 and
abortable true against a driver step declaring priority 50 and abortable
false validates to priority 50 and abortable false. -/
theorem validate_clean_step_overwrites (u : UStep) (d : DrvStep) :
    (∃ errs, _validate_user_step u d .clean = Except.ok (errs,
      { u with abortable := some (d.abortable.getD false),
               priority := some (d.priority.getD 0) }))
    ∧ _validate_user_step
        ⟨Iface.deploy, "upgrade", none, some 999, some true⟩
        ⟨Iface.deploy, "upgrade", some 50, some false, none⟩ .clean =
      Except.ok ([], ⟨Iface.deploy, "upgrade", none, some 50, some false⟩) :=
  ⟨⟨_, validate_user_step_clean_eq u d⟩, by decide⟩

/-- C7: a deploy user step with priority > 0 whose matching driver step is
the core deploy step (interface deploy, step deploy) gets a
core-step-override error recorded; the same step with priority 0 yields no
such error (only the invalid-argument errors can remain, and the
missing-argument check is skipped as well). -/
theorem validate_core_deploy_step_spec (u : UStep) (d : DrvStep) (p : Int)
    (hp : u.priority = some p)
    (hcore : d.interface = Iface.deploy ∧ d.step = "deploy") :
    (0 < p → _validate_user_step u d .deploy =
      Except.ok ((invalidArgsErrors u d .deploy ++
        missingArgsErrors u d .deploy) ++ [coreOverrideMsg u], u))
    ∧ (p = 0 → _validate_user_step u d .deploy =
      Except.ok (invalidArgsErrors u d .deploy, u)) := by
  constructor
  · intro h0
    rw [validate_user_step_deploy_eq u d p hp]
    simp [h0, hcore]
  · intro h0
    rw [validate_user_step_deploy_eq u d p hp]
    subst h0
    simp

/-- Witness for C7 at a concrete input: overriding the core deploy step with
priority 5 records exactly the core-step-override error (the argument error
lists are empty there). -/
theorem validate_core_deploy_step_spec_witness :
    (_validate_user_step ⟨Iface.deploy, "deploy", none, some 5, none⟩
        ⟨Iface.deploy, "deploy", some 100, none, none⟩ .deploy =
      Except.ok ((invalidArgsErrors
          ⟨Iface.deploy, "deploy", none, some 5, none⟩
          ⟨Iface.deploy, "deploy", some 100, none, none⟩ .deploy ++
        missingArgsErrors ⟨Iface.deploy, "deploy", none, some 5, none⟩
          ⟨Iface.deploy, "deploy", some 100, none, none⟩ .deploy) ++
        [coreOverrideMsg ⟨Iface.deploy, "deploy", none, some 5, none⟩],
        ⟨Iface.deploy, "deploy", none, some 5, none⟩))
    ∧ invalidArgsErrors ⟨Iface.deploy, "deploy", none, some 5, none⟩
        ⟨Iface.deploy, "deploy", some 100, none, none⟩ .deploy = [] :=
  ⟨(validate_core_deploy_step_spec
      ⟨Iface.deploy, "deploy", none, some 5, none⟩
      ⟨Iface.deploy, "deploy", some 100, none, none⟩ 5 rfl ⟨rfl, rfl⟩).1
    (by decide), by decide⟩

/-- C10: the claim that deploy-step validation is total over
schema-conforming input (optional `priority` key) fails on the code: a
deploy user step without a priority key that matches a driver step makes
`_validate_user_steps` raise `KeyError` (from reading the priority key at
utils.py line 941), which is neither a validated step list nor the
aggregated `InvalidParameterValue`; this contradicts the docstring of
`_validate_user_steps` (lines 979-981), which declares `priority`
optional. -/
theorem validate_deploy_missing_priority_keyerror :
    _validate_user_steps [⟨Iface.deploy, "example", none, none, none⟩]
      [⟨Iface.deploy, "example", some 10, none, none⟩] .deploy =
      Except.error (Exc.keyError "priority")
    ∧ (∀ msg, Exc.keyError "priority" ≠ Exc.invalidParameterValue msg) :=
  ⟨by decide, fun msg => by simp⟩

theorem validate_steps_loop_ok (ds : List DrvStep) (st : StepType)
    (us : List UStep)
    (h : st = .clean ∨ ∀ u ∈ us, (u.priority).isSome) :
    ∃ r, _validate_steps_loop ds st us = Except.ok r := by
  induction us with
  | nil => exact ⟨_, rfl⟩
  | cons u rest ih =>
      have hrest : st = .clean ∨ ∀ v ∈ rest, (v.priority).isSome := by
        rcases h with h | h
        · exact Or.inl h
        · exact Or.inr (fun v hv => h v (List.mem_cons_of_mem u hv))
      obtain ⟨r, hr⟩ := ih hrest
      have hstep : ∀ d : DrvStep,
          ∃ q, _validate_user_step u d st = Except.ok q := by
        intro d
        rcases h with h | h
        · subst h
          exact ⟨_, validate_user_step_clean_eq u d⟩
        · have := h u (List.mem_cons_self u rest)
          obtain ⟨p, hp⟩ := Option.isSome_iff_exists.mp this
          cases st with
          | clean => exact ⟨_, validate_user_step_clean_eq u d⟩
          | deploy => exact ⟨_, validate_user_step_deploy_eq u d p hp⟩
      unfold _validate_steps_loop
      cases hfind : ds.reverse.find? (fun d => dstep_id d = ustep_id u) with
      | none =>
          obtain ⟨errs, vs⟩ := r
          simp only [hfind, hr]
          exact ⟨_, rfl⟩
      | some d =>
          obtain ⟨⟨serrs, u1⟩, hq⟩ := hstep d
          obtain ⟨errs, vs⟩ := r
          simp only [hfind, hq, hr]
          exact ⟨_, rfl⟩

theorem validate_steps_loop_unsupported (ds : List DrvStep) (st : StepType)
    (us : List UStep) (u : UStep) (r : List String × List UStep)
    (hok : _validate_steps_loop ds st us = Except.ok r)
    (hu : u ∈ us)
    (hmiss : ds.reverse.find? (fun d => dstep_id d = ustep_id u) = none) :
    ("node does not support this " ++ stepTypeName st ++ " step: " ++
      u.text) ∈ r.1 := by
  induction us generalizing r with
  | nil => cases hu
  | cons v rest ih =>
      unfold _validate_steps_loop at hok
      rcases List.mem_cons.mp hu with hv | hv
      · subst hv
        rw [hmiss] at hok
        simp only [] at hok
        cases hrest : _validate_steps_loop ds st rest with
        | error e =>
            rw [hrest] at hok
            exact Except.noConfusion hok
        | ok q =>
            obtain ⟨errs, vs⟩ := q
            rw [hrest] at hok
            simp only [] at hok
            injection hok with hok
            subst hok
            exact List.mem_cons_self _ _
      · cases hfind : ds.reverse.find? (fun d => dstep_id d = ustep_id v) with
        | none =>
            rw [hfind] at hok
            simp only [] at hok
            cases hrest : _validate_steps_loop ds st rest with
            | error e =>
                rw [hrest] at hok
                exact Except.noConfusion hok
            | ok q =>
                obtain ⟨errs, vs⟩ := q
                rw [hrest] at hok
                simp only [] at hok
                injection hok with hok
                subst hok
                exact List.mem_cons_of_mem _ (ih ⟨errs, vs⟩ hrest hv)
        | some d =>
            rw [hfind] at hok
            simp only [] at hok
            cases hstep : _validate_user_step v d st with
            | error e =>
                rw [hstep] at hok
                exact Except.noConfusion hok
            | ok q1 =>
                obtain ⟨serrs, u1⟩ := q1
                rw [hstep] at hok
                simp only [] at hok
                cases hrest : _validate_steps_loop ds st rest with
                | error e =>
                    rw [hrest] at hok
                    exact Except.noConfusion hok
                | ok q =>
                    obtain ⟨errs, vs⟩ := q
                    rw [hrest] at hok
                    simp only [] at hok
                    injection hok with hok
                    subst hok
                    exact List.mem_append_right _ (ih ⟨errs, vs⟩ hrest hv)

/-- C3: when validation of user steps fails (here: a user step whose
`(interface, step)` pair has no matching driver step, on input where the
remaining steps cannot crash the validator), all discovered errors are
raised together as one aggregated `InvalidParameterValue`; a single
unmatched user step contributes exactly one unsupported-step error.  The
validator is a pure function that takes no node state, so a failed
validation alters none. -/
theorem validate_user_steps_unsupported_spec (user_steps : List UStep)
    (driver_steps : List DrvStep) (step_type : StepType) (u : UStep)
    (hwf : step_type = .clean ∨ ∀ s ∈ user_steps, (s.priority).isSome)
    (hu : u ∈ user_steps)
    (hmiss : driver_steps.reverse.find?
      (fun d => dstep_id d = ustep_id u) = none) :
    (∃ msg, _validate_user_steps user_steps driver_steps step_type =
      Except.error (Exc.invalidParameterValue msg))
    ∧ _validate_steps_loop driver_steps step_type [u] =
        Except.ok (["node does not support this " ++
          stepTypeName step_type ++ " step: " ++ u.text], [u]) := by
  constructor
  · obtain ⟨r, hr⟩ := validate_steps_loop_ok driver_steps step_type
      user_steps hwf
    obtain ⟨errs, vs⟩ := r
    have hmem := validate_steps_loop_unsupported driver_steps step_type
      user_steps u ⟨errs, vs⟩ hr hu hmiss
    have hne : errs ≠ [] := by
      intro hnil
      rw [hnil] at hmem
      cases hmem
    unfold _validate_user_steps
    rw [hr]
    obtain ⟨a, l⟩ : ∃ a l, errs = a :: l := by
      cases errs with
      | nil => exact absurd rfl hne
      | cons a l => exact ⟨a, l, rfl⟩
    obtain ⟨l, hal⟩ := l
    subst hal
    cases step_type with
    | clean =>
        refine ⟨"; ".intercalate (a :: l), ?_⟩
        simp
    | deploy =>
        refine ⟨"; ".intercalate
          (a :: (l ++ _validate_deploy_steps_unique user_steps)), ?_⟩
        simp
  · unfold _validate_steps_loop
    rw [hmiss]
    rfl

/-- Witness for C3 at a concrete input: one deploy user step referencing a
step absent from the driver steps. -/
theorem validate_user_steps_unsupported_spec_witness :
    (∃ msg, _validate_user_steps [⟨Iface.raid, "nope", none, some 1, none⟩]
      [⟨Iface.deploy, "deploy", some 100, none, none⟩] .deploy =
      Except.error (Exc.invalidParameterValue msg))
    ∧ _validate_steps_loop [⟨Iface.deploy, "deploy", some 100, none, none⟩]
        .deploy [⟨Iface.raid, "nope", none, some 1, none⟩] =
        Except.ok (["node does not support this " ++ stepTypeName .deploy ++
          " step: " ++ UStep.text ⟨Iface.raid, "nope", none, some 1, none⟩],
          [⟨Iface.raid, "nope", none, some 1, none⟩]) :=
  validate_user_steps_unsupported_spec
    [⟨Iface.raid, "nope", none, some 1, none⟩]
    [⟨Iface.deploy, "deploy", some 100, none, none⟩] .deploy
    ⟨Iface.raid, "nope", none, some 1, none⟩
    (Or.inr (by decide)) (by decide) (by decide)

theorem backOffLoop_never_false (poll : Nat → Bool)
    (h : ∀ i, poll i = false) :
    ∀ timeLeft delay idx, (backOffLoop poll delay timeLeft idx).1 = false := by
  intro timeLeft
  induction timeLeft using Nat.strong_induction_on with
  | _ t ih =>
      intro delay idx
      unfold backOffLoop
      split
      · rfl
      · rename_i h1
        rw [h idx]
        simp only [Bool.false_eq_true, if_false]
        split
        · rfl
        · rename_i h2
          exact ih (t - delay) (by omega) (delay * 2) (idx + 1)

theorem backOffLoop_sum_le (poll : Nat → Bool) :
    ∀ timeLeft delay idx,
    ((backOffLoop poll delay timeLeft idx).2).sum ≤ timeLeft := by
  intro timeLeft
  induction timeLeft using Nat.strong_induction_on with
  | _ t ih =>
      intro delay idx
      unfold backOffLoop
      split
      · simp
      · rename_i h1
        split
        · simp
          omega
        · split
          · rename_i h2
            simp [h2]
          · rename_i h2
            have := ih (t - delay) (by omega) (delay * 2) (idx + 1)
            simp only [List.sum_cons]
            omega

theorem backOffLoop_head (poll : Nat → Bool) (delay timeLeft idx : Nat)
    (hd : delay ≤ timeLeft) :
    ((backOffLoop poll delay timeLeft idx).2).head? = some delay := by
  unfold backOffLoop
  split
  · omega
  · split
    · rfl
    · split
      · rfl
      · rfl

theorem backOffLoop_head_opt (poll : Nat → Bool) (delay timeLeft idx : Nat) :
    ((backOffLoop poll delay timeLeft idx).2).head? = none ∨
    ((backOffLoop poll delay timeLeft idx).2).head? = some delay := by
  unfold backOffLoop
  split
  · exact Or.inl rfl
  · split
    · exact Or.inr rfl
    · split
      · exact Or.inr rfl
      · exact Or.inr rfl

theorem backOffLoop_chain (poll : Nat → Bool) :
    ∀ timeLeft delay idx, 0 < delay →
    ((backOffLoop poll delay timeLeft idx).2).Chain' (· < ·) := by
  intro timeLeft
  induction timeLeft using Nat.strong_induction_on with
  | _ t ih =>
      intro delay idx hdelay
      unfold backOffLoop
      split
      · exact List.chain'_nil
      · rename_i h1
        split
        · exact List.chain'_singleton _
        · split
          · omega
          · rename_i h2
            apply List.chain'_cons'.mpr
            constructor
            · intro b hb
              rcases backOffLoop_head_opt poll (delay * 2) (t - delay)
                  (idx + 1) with hh | hh
              · rw [hh] at hb
                cases hb
              · rw [hh] at hb
                cases hb
                omega
            · have := ih (t - delay) (by omega) (delay * 2) (idx + 1)
              exact this (by omega)

/-- C9: when polling never observes the target state within the timeout, the
wait raises a power-state failure naming the desired state rather than
blocking indefinitely: the total sleep time is bounded by the effective
timeout (the caller-supplied one, or the configured default when none is
given); polling begins with an initial delay of 1 time unit and the delay
strictly increases after each non-matching poll. -/
theorem node_wait_for_power_state_timeout (poll : Nat → PState)
    (new_state : PState) (timeout : Option Nat) (conf_timeout : Nat)
    (h : ∀ i, poll i ≠ new_state) :
    (node_wait_for_power_state poll new_state timeout conf_timeout).1 =
      Except.error (Exc.powerStateFailure new_state)
    ∧ ((node_wait_for_power_state poll new_state timeout
        conf_timeout).2).sum ≤ retryTimeout timeout conf_timeout
    ∧ (1 ≤ retryTimeout timeout conf_timeout →
        ((node_wait_for_power_state poll new_state timeout
          conf_timeout).2).head? = some 1)
    ∧ ((node_wait_for_power_state poll new_state timeout
        conf_timeout).2).Chain' (· < ·) := by
  have hfalse : ∀ i, (decide (poll i = new_state)) = false := by
    intro i
    simp [h i]
  have h1 := backOffLoop_never_false _ hfalse
    (retryTimeout timeout conf_timeout) 1 0
  refine ⟨?_, ?_, ?_, ?_⟩
  · simp only [node_wait_for_power_state, h1, Bool.false_eq_true, if_false]
  · exact backOffLoop_sum_le _ _ _ _
  · intro hle
    exact backOffLoop_head _ 1 _ 0 hle
  · exact backOffLoop_chain _ _ 1 _ (by omega)

/-- Witness for C9 at a concrete input: the driver always reports POWER_OFF
while POWER_ON is awaited with timeout 3; the wait fails with a power-state
failure naming POWER_ON. -/
theorem node_wait_for_power_state_timeout_witness :
    (node_wait_for_power_state (fun _ => PState.POWER_OFF) PState.POWER_ON
      (some 3) 30).1 = Except.error (Exc.powerStateFailure PState.POWER_ON) :=
  (node_wait_for_power_state_timeout (fun _ => PState.POWER_OFF)
    PState.POWER_ON (some 3) 30 (fun _ h => PState.noConfusion h)).1

/-- C1: a POWER_ON request when the driver reports POWER_ON (likewise a
POWER_OFF/SOFT_POWER_OFF request when it reports POWER_OFF) returns
successfully after only the power-state read: no `set_power_state`, `reboot`
or volume-attach driver call is made, `last_error` is cleared, `power_state`
is resynced to the observed value, `target_power_state` is reset to NOSTATE,
the node is persisted, and an END notification is emitted after the save. -/
theorem node_power_action_skip_spec (driver : PowerDriver)
    (new_state curr : PState) (s : PowerSt)
    (hget : driver.get_power_state = Except.ok curr)
    (hmatch : (new_state = PState.POWER_ON ∧ curr = PState.POWER_ON) ∨
      (curr = PState.POWER_OFF ∧ (new_state = PState.POWER_OFF ∨
        new_state = PState.SOFT_POWER_OFF))) :
    node_power_action driver new_state s =
      (Except.ok (), ⟨{ s.node with
          last_error := none, power_state := some curr,
          target_power_state := none },
        s.events ++ [Ev.notify .INFO .START new_state, Ev.getPowerCall,
          Ev.save { s.node with
            last_error := none, power_state := some curr,
            target_power_state := none },
          Ev.notify .INFO .END new_state]⟩)
    ∧ (∀ st, Ev.setPowerCall st ∉
        ((node_power_action driver new_state s).2.events.drop
          s.events.length))
    ∧ Ev.rebootCall ∉
        ((node_power_action driver new_state s).2.events.drop s.events.length)
    ∧ Ev.attachCall ∉
        ((node_power_action driver new_state s).2.events.drop
          s.events.length) := by
  have hmain : node_power_action driver new_state s =
      (Except.ok (), ⟨{ s.node with
          last_error := none, power_state := some curr,
          target_power_state := none },
        s.events ++ [Ev.notify .INFO .START new_state, Ev.getPowerCall,
          Ev.save { s.node with
            last_error := none, power_state := some curr,
            target_power_state := none },
          Ev.notify .INFO .END new_state]⟩) := by
    rcases hmatch with ⟨h1, h2⟩ | ⟨h1, h2⟩
    · subst h1
      subst h2
      simp [node_power_action, _can_skip_state_change, hget,
        _not_going_to_change, PowerSt.emit, PowerSt.call, PowerSt.setNode,
        PowerSt.saveNode]
    · subst h1
      rcases h2 with h2 | h2 <;> subst h2 <;>
        simp [node_power_action, _can_skip_state_change, hget,
          _not_going_to_change, PowerSt.emit, PowerSt.call, PowerSt.setNode,
          PowerSt.saveNode]
  have hev : (node_power_action driver new_state s).2.events.drop
      s.events.length =
      [Ev.notify .INFO .START new_state, Ev.getPowerCall,
        Ev.save { s.node with
          last_error := none, power_state := some curr,
          target_power_state := none },
        Ev.notify .INFO .END new_state] := by
    rw [hmain]
    exact List.drop_left s.events _
  refine ⟨hmain, ?_, ?_, ?_⟩
  · intro st
    rw [hev]
    simp
  · rw [hev]
    simp
  · rw [hev]
    simp

/-- Witness for C1 at a concrete input: a POWER_ON request on a node the
driver already reports as powered on. -/
theorem node_power_action_skip_spec_witness :
    node_power_action
      ⟨Except.ok PState.POWER_ON, fun _ => Except.ok (), Except.ok (),
        Except.ok (), Except.ok ()⟩
      PState.POWER_ON
      ⟨⟨ProvState.ACTIVE, some PState.POWER_OFF, some PState.POWER_ON,
        some "old error"⟩, []⟩ =
      (Except.ok (), ⟨(⟨ProvState.ACTIVE, some PState.POWER_ON,
          none, none⟩ : PNode),
        [] ++ [Ev.notify .INFO .START PState.POWER_ON, Ev.getPowerCall,
          Ev.save (⟨ProvState.ACTIVE, some PState.POWER_ON, none,
            none⟩ : PNode),
          Ev.notify .INFO .END PState.POWER_ON]⟩) := by
  have := (node_power_action_skip_spec
    ⟨Except.ok PState.POWER_ON, fun _ => Except.ok (), Except.ok (),
      Except.ok (), Except.ok ()⟩
    PState.POWER_ON PState.POWER_ON
    ⟨⟨ProvState.ACTIVE, some PState.POWER_OFF, some PState.POWER_ON,
      some "old error"⟩, []⟩
    rfl (Or.inl ⟨rfl, rfl⟩)).1
  exact this

theorem can_skip_false_state (driver : PowerDriver) (new_state : PState)
    (t : PowerSt)
    (h : (_can_skip_state_change driver new_state t).1 = Except.ok false) :
    (_can_skip_state_change driver new_state t).2 = t ∨
    (_can_skip_state_change driver new_state t).2 =
      t.call Ev.getPowerCall := by
  unfold _can_skip_state_change at h ⊢
  split at h
  · rename_i hcond
    rw [if_pos hcond]
    exact Or.inl rfl
  · rename_i hcond
    rw [if_neg hcond]
    cases hg : driver.get_power_state with
    | error e =>
        rw [hg] at h
        simp only [] at h
        exact Except.noConfusion h
    | ok curr =>
        rw [hg] at h
        simp only [] at h ⊢
        by_cases h1 : curr = PState.POWER_ON
        · by_cases h2 : new_state = PState.POWER_ON
          · rw [if_pos h1, if_pos h2] at h
            simp at h
          · rw [if_pos h1, if_neg h2]
            exact Or.inr rfl
        · by_cases h3 : curr = PState.POWER_OFF
          · by_cases h4 : new_state = PState.POWER_OFF ∨
                new_state = PState.SOFT_POWER_OFF
            · rw [if_neg h1, if_pos h3, if_pos h4] at h
              simp at h
            · rw [if_neg h1, if_pos h3, if_neg h4]
              exact Or.inr rfl
          · rw [if_neg h1, if_neg h3]
            exact Or.inr rfl

theorem node_power_action_unskipped_error (driver : PowerDriver)
    (new_state : PState) (e : Exc) (t : PowerSt)
    (hfail : (powerActionTry driver new_state
        (_calculate_target_state new_state) t.node.provision_state).1 =
      Except.error e) :
    (node_power_action_unskipped driver new_state t).1 = Except.error e
    ∧ (node_power_action_unskipped driver new_state
        t).2.node.target_power_state = none
    ∧ (node_power_action_unskipped driver new_state t).2.node.last_error =
        some ("Failed to change power state to " ++
          optStateText (_calculate_target_state new_state) ++ " by " ++
          new_state.text ++ ". Error: " ++ e.text)
    ∧ ∃ pre, (node_power_action_unskipped driver new_state t).2.events =
        pre ++ [Ev.save (node_power_action_unskipped driver new_state
          t).2.node, Ev.notify .ERROR .ERROR new_state] := by
  unfold node_power_action_unskipped
  rcases hpt : powerActionTry driver new_state
      (_calculate_target_state new_state) t.node.provision_state
    with ⟨rt, evs⟩
  have hrt : rt = Except.error e := by
    rw [hpt] at hfail
    exact hfail
  subst hrt
  simp only [PowerSt.setNode, PowerSt.saveNode, PowerSt.emit, PowerSt.call]
  by_cases hz : t.node.target_power_state ≠ _calculate_target_state new_state
  · rw [if_pos hz]
    try simp only []
    rw [hpt]
    try simp only []
    refine ⟨trivial, trivial, trivial, ?_⟩
    exact ⟨_, by rw [List.append_assoc, List.singleton_append]⟩
  · rw [if_neg hz]
    try simp only []
    rw [hpt]
    try simp only []
    refine ⟨trivial, trivial, trivial, ?_⟩
    exact ⟨_, by rw [List.append_assoc, List.singleton_append]⟩

/-- C2: when the driver action phase of `node_power_action` (volume attach on
an ACTIVE node powering on, `set_power_state`, or `reboot`) raises, and the
request was not skippable, the handler resets `target_power_state` to
NOSTATE, sets `last_error` to a message naming both the computed target state
and the requested state together with the error, persists the node, emits an
ERROR notification after the save, and re-raises the same exception
unchanged. -/
theorem node_power_action_error_spec (driver : PowerDriver)
    (new_state : PState) (e : Exc) (s : PowerSt)
    (hskip : ∀ t : PowerSt,
      (_can_skip_state_change driver new_state t).1 = Except.ok false)
    (hfail : (powerActionTry driver new_state
        (_calculate_target_state new_state) s.node.provision_state).1 =
      Except.error e) :
    (node_power_action driver new_state s).1 = Except.error e
    ∧ (node_power_action driver new_state s).2.node.target_power_state = none
    ∧ (node_power_action driver new_state s).2.node.last_error =
        some ("Failed to change power state to " ++
          optStateText (_calculate_target_state new_state) ++ " by " ++
          new_state.text ++ ". Error: " ++ e.text)
    ∧ ∃ pre, (node_power_action driver new_state s).2.events =
        pre ++ [Ev.save (node_power_action driver new_state s).2.node,
          Ev.notify .ERROR .ERROR new_state] := by
  unfold node_power_action
  rcases hcs : _can_skip_state_change driver new_state
      (s.emit .INFO .START new_state) with ⟨r, s2⟩
  have hr : r = Except.ok false := by
    have := hskip (s.emit .INFO .START new_state)
    rw [hcs] at this
    exact this
  subst hr
  simp only []
  rw [hcs]
  simp only []
  have hnode : s2.node = s.node := by
    have hd := can_skip_false_state driver new_state
      (s.emit .INFO .START new_state) (by rw [hcs])
    rw [hcs] at hd
    simp only [] at hd
    rcases hd with hd | hd <;> rw [hd] <;> rfl
  have hfail2 : (powerActionTry driver new_state
      (_calculate_target_state new_state) s2.node.provision_state).1 =
      Except.error e := by
    rw [hnode]
    exact hfail
  exact node_power_action_unskipped_error driver new_state e s2 hfail2

/-- Witness for C2 at a concrete input: powering on an ACTIVE node whose
volume attach fails with a storage error; the same exception is re-raised. -/
theorem node_power_action_error_spec_witness :
    (node_power_action
      ⟨Except.ok PState.POWER_OFF, fun _ => Except.ok (), Except.ok (),
        Except.error (Exc.storageError "attach failed"), Except.ok ()⟩
      PState.POWER_ON
      ⟨⟨ProvState.ACTIVE, some PState.POWER_OFF, none, none⟩, []⟩).1 =
      Except.error (Exc.storageError "attach failed") :=
  (node_power_action_error_spec
    ⟨Except.ok PState.POWER_OFF, fun _ => Except.ok (), Except.ok (),
      Except.error (Exc.storageError "attach failed"), Except.ok ()⟩
    PState.POWER_ON (Exc.storageError "attach failed")
    ⟨⟨ProvState.ACTIVE, some PState.POWER_OFF, none, none⟩, []⟩
    (fun _ => rfl) rfl).1

theorem string_append_ne_empty (a b : String) (h : a ≠ "") : a ++ b ≠ "" := by
  intro hab
  have h1 : (a ++ b).length = 0 := by rw [hab]; rfl
  rw [String.length_append] at h1
  have h2 : a.length = 0 := by omega
  apply h
  cases a with
  | mk l =>
      cases l with
      | nil => rfl
      | cons c cs => simp [String.length] at h2

/-- C8: `deploying_error_handler` always leaves `last_error` set to a
non-empty message — the user-supplied error message, possibly augmented with
cleanup-failure information — persists that message before attempting the
deploy clean_up call (the first save in the trace carries it and precedes the
clean_up call event), and triggers the `fail` process event exactly once,
even when the clean_up call itself raises. -/
theorem deploying_error_handler_spec (clean_up_result : Except Exc Unit)
    (errmsg : String) (clean_up : Bool) (s : DeployTask)
    (hmsg : errmsg ≠ "") :
    (∃ m, (deploying_error_handler clean_up_result errmsg clean_up
        s).node.last_error = some m ∧ m ≠ "" ∧ ∃ rest, m = errmsg ++ rest)
    ∧ (deploying_error_handler clean_up_result errmsg clean_up s).events =
        s.events ++ [DEv.save { s.node with last_error := some errmsg }]
          ++ (if clean_up then [DEv.cleanUpCall] else [])
          ++ [DEv.refreshCall,
              DEv.save (deploying_error_handler clean_up_result errmsg
                clean_up s).node,
              DEv.processEvent "fail"]
    ∧ ((deploying_error_handler clean_up_result errmsg clean_up
        s).events.drop s.events.length).count (DEv.processEvent "fail")
      = 1 := by
  cases clean_up with
  | false =>
      by_cases hp : ({ s.node with
          last_error := some errmsg } : DNode).provision_state =
            ProvState.DEPLOYING ∨
          ({ s.node with last_error := some errmsg } : DNode).provision_state =
            ProvState.DEPLOYWAIT ∨
          ({ s.node with last_error := some errmsg } : DNode).provision_state =
            ProvState.DEPLOYFAIL
      · refine ⟨⟨errmsg, ?_, hmsg, ⟨"", ?_⟩⟩, ?_, ?_⟩
        · simp [deploying_error_handler, hp]
        · simp
        · simp [deploying_error_handler, hp, List.append_assoc]
        · simp [deploying_error_handler, hp, List.append_assoc]
      · refine ⟨⟨errmsg, ?_, hmsg, ⟨"", ?_⟩⟩, ?_, ?_⟩
        · simp [deploying_error_handler, hp]
        · simp
        · simp [deploying_error_handler, hp, List.append_assoc]
        · simp [deploying_error_handler, hp, List.append_assoc]
  | true =>
      cases clean_up_result with
      | ok u =>
          by_cases hp : ({ s.node with
              last_error := some errmsg } : DNode).provision_state =
                ProvState.DEPLOYING ∨
              ({ s.node with
                last_error := some errmsg } : DNode).provision_state =
                ProvState.DEPLOYWAIT ∨
              ({ s.node with
                last_error := some errmsg } : DNode).provision_state =
                ProvState.DEPLOYFAIL
          · refine ⟨⟨errmsg, ?_, hmsg, ⟨"", ?_⟩⟩, ?_, ?_⟩
            · simp [deploying_error_handler, hp]
            · simp
            · simp [deploying_error_handler, hp, List.append_assoc]
            · simp [deploying_error_handler, hp, List.append_assoc]
          · refine ⟨⟨errmsg, ?_, hmsg, ⟨"", ?_⟩⟩, ?_, ?_⟩
            · simp [deploying_error_handler, hp]
            · simp
            · simp [deploying_error_handler, hp, List.append_assoc]
            · simp [deploying_error_handler, hp, List.append_assoc]
      | error e =>
          by_cases hp : ({ s.node with
              last_error := some errmsg } : DNode).provision_state =
                ProvState.DEPLOYING ∨
              ({ s.node with
                last_error := some errmsg } : DNode).provision_state =
                ProvState.DEPLOYWAIT ∨
              ({ s.node with
                last_error := some errmsg } : DNode).provision_state =
                ProvState.DEPLOYFAIL
          · refine ⟨⟨errmsg ++ ". " ++
                (if e.isIronicException then
                  "Also failed to clean up due to: " ++ e.text
                else
                  "An unhandled exception was encountered while aborting. " ++
                  "More information may be found in the log file."),
                ?_, string_append_ne_empty _ _
                  (string_append_ne_empty _ _ hmsg), ?_⟩, ?_, ?_⟩
            · simp [deploying_error_handler, hp]
            · exact ⟨_, by rw [String.append_assoc]⟩
            · simp [deploying_error_handler, hp, List.append_assoc]
            · simp [deploying_error_handler, hp, List.append_assoc]
          · refine ⟨⟨errmsg ++ ". " ++
                (if e.isIronicException then
                  "Also failed to clean up due to: " ++ e.text
                else
                  "An unhandled exception was encountered while aborting. " ++
                  "More information may be found in the log file."),
                ?_, string_append_ne_empty _ _
                  (string_append_ne_empty _ _ hmsg), ?_⟩, ?_, ?_⟩
            · simp [deploying_error_handler, hp]
            · exact ⟨_, by rw [String.append_assoc]⟩
            · simp [deploying_error_handler, hp, List.append_assoc]
            · simp [deploying_error_handler, hp, List.append_assoc]

/-- Witness for C8 at a concrete input: a deploying node whose clean_up call
raises a non-ironic exception; the handler still records a non-empty message
and fires the fail event once. -/
theorem deploying_error_handler_spec_witness :
    ∃ m, (deploying_error_handler (Except.error (Exc.other "boom"))
        "deploy failed" true
        ⟨⟨ProvState.DEPLOYING, none, [("step", "x")], some 2⟩,
          ⟨ProvState.DEPLOYING, none, [("step", "x")], some 2⟩,
          []⟩).node.last_error = some m ∧ m ≠ "" ∧
      ∃ rest, m = "deploy failed" ++ rest :=
  (deploying_error_handler_spec (Except.error (Exc.other "boom"))
    "deploy failed" true
    ⟨⟨ProvState.DEPLOYING, none, [("step", "x")], some 2⟩,
      ⟨ProvState.DEPLOYING, none, [("step", "x")], some 2⟩, []⟩
    (by decide)).1

end ConductorUtils
